import Mathlib

/-!
Shallow embedding of `src/api/controllers/hr.controller.js` (an HR back-office
API: employee directory, compensation ledger, leave-approval workflow and
attendance aggregation).  The document store (MongoDB/mongoose) is an excluded
external collaborator per the spec; it is modelled as lists inside a `Store`
structure, with `find`/`create`/`update`/`delete`/`upsert` as list operations.
JavaScript request values are modelled by `JSValue` with JS truthiness.
-/

namespace Hyro

/-- A JavaScript value as it appears in `req.body` / `req.query` and in stored
documents.  Floats and objects are not needed by any handler logic modelled
here (all field values flow through unchanged); `undefined` models an absent
property. -/
inductive JSValue where
  | undefined : JSValue
  | vNull : JSValue
  | vBool : Bool → JSValue
  | vNum : Int → JSValue
  | vStr : String → JSValue
deriving DecidableEq, Repr

/-- JavaScript truthiness: `undefined`, `null`, `false`, `0` and `""` are
falsy; everything else modelled here is truthy. -/
def truthy : JSValue → Bool
  | .undefined => false
  | .vNull => false
  | .vBool b => b
  | .vNum n => n != 0
  | .vStr s => s != ""

/-- JavaScript `a || b` (returns `a` when truthy, else `b`). -/
def jsOr (a b : JSValue) : JSValue := if truthy a then a else b

/-- String interpolation of a JS value (template literals). -/
def jsToString : JSValue → String
  | .undefined => "undefined"
  | .vNull => "null"
  | .vBool b => if b then "true" else "false"
  | .vNum n => toString n
  | .vStr s => s

/-- A JS `Date` holding a local instant: `days` since the local epoch day and
`ms` milliseconds into that day.  `getDay`, the civil accessors and the
`Date(year, month, day)` constructor below follow ECMAScript semantics on this
representation. -/
structure JSDate where
  days : Int
  ms : Int
deriving DecidableEq, Repr

/-- Days since 1970-01-01 of civil date (year, 1-based month 1..12, day;
the day may lie outside 1..31, as in JS `new Date(y,m,d)` which normalizes).
Standard civil-from-days algorithm with floor division. -/
def daysFromCivil (y m d : Int) : Int :=
  let y' := y - (if m ≤ 2 then 1 else 0)
  let era := y' / 400
  let yoe := y' - era * 400
  let mp := m + (if m > 2 then -3 else 9)
  let doy := (153 * mp + 2) / 5 + d - 1
  let doe := yoe * 365 + yoe / 4 - yoe / 100 + doy
  era * 146097 + doe - 719468

/-- Civil date (year, 0-based month 0..11, day 1..31) of a days-since-epoch
count.  Inverse of `daysFromCivil` (with the month shifted to JS 0-based). -/
def civilFromDays (z0 : Int) : Int × Int × Int :=
  let z := z0 + 719468
  let era := z / 146097
  let doe := z - era * 146097
  let yoe := (doe - doe / 1460 + doe / 36524 - doe / 146096) / 365
  let y := yoe + era * 400
  let doy := doe - (365 * yoe + yoe / 4 - yoe / 100)
  let mp := (5 * doy + 2) / 153
  let d := doy - (153 * mp + 2) / 5 + 1
  let m := mp + (if mp < 10 then 3 else -9)
  (if m ≤ 2 then y + 1 else y, m - 1, d)

/-- JS `date.getFullYear()`. -/
def getFullYear (t : JSDate) : Int := (civilFromDays t.days).1

/-- JS `date.getMonth()` (0-based). -/
def getMonth (t : JSDate) : Int := (civilFromDays t.days).2.1

/-- JS `date.getDate()` (day of month). -/
def getDate (t : JSDate) : Int := (civilFromDays t.days).2.2

/-- JS `date.getDay()` (day of week, 0 = Sunday); 1970-01-01 was a Thursday. -/
def getDay (t : JSDate) : Int := (t.days + 4) % 7

/-- JS `new Date(year, month, day)` with a 0-based month: local midnight of
the (normalized) civil date. -/
def newDate (y m0 d : Int) : JSDate := ⟨daysFromCivil y (m0 + 1) d, 0⟩

/-- Timestamp in milliseconds, the order `$gte`/`$lte` compare dates by. -/
def toMillis (t : JSDate) : Int := t.days * 86400000 + t.ms

/-- An employee document (mongoose `User` model).  Profile fields hold the JS
values that were submitted; `totalPerformance` is a numeric score.
Modelled from the spec: the `User` schema file is not under `src/`; per the
spec, `role` defaults to `"employee"` and `totalPerformance` to `0` at
creation, and no serialization-time hiding of `password` exists (the handlers
exclude it explicitly where they do). -/
structure EmployeeRecord where
  id : String
  firstName : JSValue
  lastName : JSValue
  email : JSValue
  password : JSValue
  position : JSValue
  joiningDate : JSValue
  role : JSValue
  totalPerformance : Int
deriving DecidableEq, Repr

/-- `select("-password")` / `populate(..., "-password")`: the credential
secret field is removed from the returned document (modelled as `undefined`). -/
def stripPassword (u : EmployeeRecord) : EmployeeRecord := { u with password := .undefined }

/-- Nested `otherComponents.allowances` of a CTC document. -/
structure Allowances where
  housingAllowance : JSValue
  transportAllowance : JSValue
  mealAllowance : JSValue
deriving DecidableEq, Repr

/-- Nested `otherComponents.bonuses` of a CTC document. -/
structure Bonuses where
  performanceBonus : JSValue
  yearEndBonus : JSValue
deriving DecidableEq, Repr

/-- Nested `otherComponents.deductions` of a CTC document. -/
structure Deductions where
  tax : JSValue
  healthInsurance : JSValue
  providentFund : JSValue
deriving DecidableEq, Repr

/-- Nested `otherComponents` of a CTC document. -/
structure OtherComponents where
  allowances : Allowances
  bonuses : Bonuses
  deductions : Deductions
deriving DecidableEq, Repr

/-- A compensation (CTC) document (`employeeCTC` model), keyed by
`employeeId`. -/
structure CompensationRecord where
  employeeId : String
  annualCTC : JSValue
  monthlyInHand : JSValue
  effectiveDate : JSValue
  otherComponents : OtherComponents
deriving DecidableEq, Repr

/-- A leave-application document (`LeaveApplication` model); creation happens
in an excluded employee-facing flow, so only the fields this controller reads
and writes are modelled. -/
structure LeaveRecord where
  id : String
  employeeId : String
  status : JSValue
  hrComments : JSValue
deriving DecidableEq, Repr

/-- An attendance entry (`Attendance` model): read-only in this controller. -/
structure AttendanceEntry where
  userId : String
  date : JSDate
  duration : Option Int
deriving DecidableEq, Repr

/-- The abstract document store (the spec's excluded persistence engine):
one collection per model, plus a counter from which fresh ObjectIds are
drawn at insertion. -/
structure Store where
  users : List EmployeeRecord
  ctcs : List CompensationRecord
  leaves : List LeaveRecord
  attendance : List AttendanceEntry
  nextId : Nat
deriving DecidableEq, Repr

/-- Hex digit character for a value below 16. -/
def hexDigit (n : Nat) : Char := if n < 10 then Char.ofNat (48 + n) else Char.ofNat (87 + n)

/-- A fresh 24-hex-character ObjectId derived from the store's counter. -/
def objectIdOf (n : Nat) : String :=
  String.mk ((List.range 24).reverse.map (fun i => hexDigit (n / 16 ^ i % 16)))

/-- Is `c` a hexadecimal digit character? -/
def isHexChar (c : Char) : Bool :=
  c.isDigit || ('a' ≤ c && c ≤ 'f') || ('A' ≤ c && c ≤ 'F')

/-- Modelled from the spec: mongoose's `isValidObjectId` (external library,
not under `src/`) accepts a 24-character hexadecimal string. -/
def isValidObjectId (s : String) : Bool :=
  s.length == 24 && s.toList.all isHexChar

/-- Modelled from the spec: `bcrypt.hash` (external library) is a one-way
salted hash of a string; hashing a non-string (e.g. an absent password,
`undefined`) rejects, which the handler's `catch` turns into an Internal
error.  The hash itself is opaque; only that it differs from the plaintext
and is a string matters here. -/
def bcryptHash : JSValue → Except String String
  | .vStr s => .ok ("$2a$10$" ++ s)
  | _ => .error "Illegal arguments"

/-- A handler outcome: a success JSON response with a status code, or an
error surfaced through `next(errorHandler(status, msg))` / an error JSON
body. -/
inductive HResp (α : Type) where
  | success : Nat → α → HResp α
  | error : Nat → String → HResp α
deriving DecidableEq, Repr

/-- `User.findById` (also used for leave applications): first document with
the given id. -/
def findUser (s : Store) (id : String) : Option EmployeeRecord :=
  s.users.find? (fun u => u.id == id)

/-- `LeaveApplication.findById`. -/
def findLeave (s : Store) (id : String) : Option LeaveRecord :=
  s.leaves.find? (fun l => l.id == id)

/-- The request body of the add/edit employee endpoints: each destructured
property is a JS value (`undefined` when absent). -/
structure EmpBody where
  firstName : JSValue
  lastName : JSValue
  email : JSValue
  password : JSValue
  position : JSValue
  joiningDate : JSValue
  role : JSValue
  annualCTC : JSValue
  monthlyInHand : JSValue
  housingAllowance : JSValue
  transportAllowance : JSValue
  mealAllowance : JSValue
  performanceBonus : JSValue
  yearEndBonus : JSValue
  tax : JSValue
  healthInsurance : JSValue
  providentFund : JSValue
deriving DecidableEq, Repr

/-- `req.body[field]`: dynamic property access used by the missing-field
filters. -/
def getField (b : EmpBody) : String → JSValue
  | "firstName" => b.firstName
  | "lastName" => b.lastName
  | "email" => b.email
  | "password" => b.password
  | "position" => b.position
  | "joiningDate" => b.joiningDate
  | "role" => b.role
  | "annualCTC" => b.annualCTC
  | "monthlyInHand" => b.monthlyInHand
  | "housingAllowance" => b.housingAllowance
  | "transportAllowance" => b.transportAllowance
  | "mealAllowance" => b.mealAllowance
  | "performanceBonus" => b.performanceBonus
  | "yearEndBonus" => b.yearEndBonus
  | "tax" => b.tax
  | "healthInsurance" => b.healthInsurance
  | "providentFund" => b.providentFund
  | _ => .undefined

/-- The 14 field names whose presence `addEmployee` checks. -/
def addRequiredFields : List String :=
  ["firstName", "lastName", "email", "position", "annualCTC", "monthlyInHand",
   "housingAllowance", "transportAllowance", "mealAllowance", "performanceBonus",
   "yearEndBonus", "tax", "healthInsurance", "providentFund"]

/-- The 15 field names whose presence `editEmployee` checks (adds `role`). -/
def editRequiredFields : List String :=
  ["firstName", "lastName", "email", "position", "role", "annualCTC", "monthlyInHand",
   "housingAllowance", "transportAllowance", "mealAllowance", "performanceBonus",
   "yearEndBonus", "tax", "healthInsurance", "providentFund"]

/-- Insertion step of the `sort({ totalPerformance: -1 })` (descending). -/
def insertByPerf (u : EmployeeRecord) : List EmployeeRecord → List EmployeeRecord
  | [] => [u]
  | v :: vs =>
    if u.totalPerformance ≥ v.totalPerformance then u :: v :: vs
    else v :: insertByPerf u vs

/-- `sort({ totalPerformance: -1 })`: employees by descending score. -/
def sortByPerf (l : List EmployeeRecord) : List EmployeeRecord :=
  l.foldr insertByPerf []

/-- Success body of `getEmployees`. -/
structure GetEmployeesBody where
  totalEmployees : Nat
  employees : List EmployeeRecord
deriving DecidableEq, Repr

/-- `getEmployees`: role gate, then count and list of `role: "employee"`
documents with the password excluded, sorted by `totalPerformance`
descending. -/
def getEmployees (role : String) (s : Store) : HResp GetEmployeesBody × Store :=
  if ¬ (role = "hr" ∨ role = "admin") then
    (.error 403 "You are not allowed to access this API.", s)
  else
    let emps := s.users.filter (fun u => u.role == .vStr "employee")
    (.success 200 ⟨emps.length, sortByPerf (emps.map stripPassword)⟩, s)

/-- `getEmployee`: role gate, id validation, `findById`; returns the full
document (no password exclusion on this path). -/
def getEmployee (role : String) (id : Option String) (s : Store) :
    HResp EmployeeRecord × Store :=
  if ¬ (role = "hr" ∨ role = "admin") then
    (.error 403 "Access denied.", s)
  else
    match id with
    | none => (.error 400 "Employee ID is required.", s)
    | some i =>
      if i = "" then (.error 400 "Employee ID is required.", s)
      else if ¬ isValidObjectId i then (.error 400 "Invalid Employee ID.", s)
      else
        match findUser s i with
        | none => (.error 404 "Employee not found.", s)
        | some u => (.success 200 u, s)

/-- Case-insensitive match of the pattern at the start of the text, for
patterns made of literal characters and the `.` wildcard. -/
def matchHere : List Char → List Char → Bool
  | [], _ => true
  | _ :: _, [] => false
  | p :: ps, c :: cs => (p == '.' || p.toLower == c.toLower) && matchHere ps cs

/-- Modelled fragment of `new RegExp(query, "i").test` / Mongo `$regex`:
unanchored case-insensitive matching, faithful to ECMAScript regexes for
patterns whose characters are alphanumerics (literal in a regex) or the `.`
wildcard. -/
def regexTest (p : List Char) (t : List Char) : Bool :=
  matchHere p t ||
    match t with
    | [] => false
    | _ :: cs => regexTest p cs

/-- Mongo `$regex` on a document field: only string values can match. -/
def jsTest (p : String) : JSValue → Bool
  | .vStr s => regexTest p.toList s.toList
  | _ => false

/-- `search`: requires a truthy `query` (400 otherwise), then returns every
`role: "employee"` document one of whose `firstName`, `lastName`, `email`
matches the query as a case-insensitive regex.  No role gate on this path. -/
def search (query : Option String) (s : Store) : HResp (List EmployeeRecord) × Store :=
  match query with
  | none => (.error 400 "Query parameter is required", s)
  | some q =>
    if q = "" then (.error 400 "Query parameter is required", s)
    else
      (.success 200 (s.users.filter (fun u =>
        u.role == .vStr "employee" &&
          (jsTest q u.firstName || jsTest q u.lastName || jsTest q u.email))), s)

/-- The public-fields projection of a created user in the `addEmployee`
response (`id, firstName, lastName, email, role, position` — no password). -/
structure PublicUser where
  id : String
  firstName : JSValue
  lastName : JSValue
  email : JSValue
  role : JSValue
  position : JSValue
deriving DecidableEq, Repr

/-- Success body of `addEmployee`. -/
structure AddEmployeeBody where
  message : String
  user : PublicUser
  employeeCTC : CompensationRecord
deriving DecidableEq, Repr

/-- The CTC document built by `addEmployee` / `editEmployee` from the body. -/
def ctcComponents (b : EmpBody) : OtherComponents :=
  ⟨⟨b.housingAllowance, b.transportAllowance, b.mealAllowance⟩,
   ⟨b.performanceBonus, b.yearEndBonus⟩,
   ⟨b.tax, b.healthInsurance, b.providentFund⟩⟩

/-- `addEmployee`: role gate; missing-field check over the 14 required names
(JS falsiness); hash of the password (a non-string rejects, caught as a 500);
`User.create` (role and totalPerformance from the schema defaults, per the
spec) followed by `employeeCTC.create` with `effectiveDate = joiningDate`;
201 response exposing only the public user fields plus the CTC document. -/
def addEmployee (userRole : String) (b : EmpBody) (s : Store) :
    HResp AddEmployeeBody × Store :=
  if ¬ (userRole = "admin" ∨ userRole = "hr") then
    (.error 403 "You do not have permission to access this API", s)
  else
    let missingFields := addRequiredFields.filter (fun f => ! truthy (getField b f))
    if missingFields ≠ [] then
      (.error 400 ("All fields are required! Missing fields: " ++
        String.intercalate ", " missingFields), s)
    else
      match bcryptHash b.password with
      | .error _ => (.error 500 "Internal Server Error", s)
      | .ok hashed =>
        let uid := objectIdOf s.nextId
        let user : EmployeeRecord :=
          { id := uid, firstName := b.firstName, lastName := b.lastName,
            email := b.email, password := .vStr hashed, position := b.position,
            joiningDate := b.joiningDate, role := .vStr "employee",
            totalPerformance := 0 }
        let ctc : CompensationRecord :=
          { employeeId := uid, annualCTC := b.annualCTC,
            monthlyInHand := b.monthlyInHand, effectiveDate := b.joiningDate,
            otherComponents := ctcComponents b }
        let s' : Store :=
          { s with users := s.users ++ [user], ctcs := s.ctcs ++ [ctc],
                   nextId := s.nextId + 1 }
        (.success 201
          ⟨"Employee added successfully!",
           ⟨user.id, user.firstName, user.lastName, user.email, user.role,
            user.position⟩, ctc⟩, s')

/-- Success body of `editEmployee`. -/
structure EditEmployeeBody where
  message : String
  user : EmployeeRecord
  ctc : CompensationRecord
deriving DecidableEq, Repr

/-- `User.findByIdAndUpdate(userId, {profile fields}, {new: true})`: update
every matching document's profile fields and return the updated document, or
`none` when no document matches. -/
def updateUserById (s : Store) (userId : String) (b : EmpBody) :
    Option EmployeeRecord × List EmployeeRecord :=
  let upd := fun (u : EmployeeRecord) =>
    { u with firstName := b.firstName, lastName := b.lastName, email := b.email,
             role := b.role, position := b.position, joiningDate := b.joiningDate }
  ((s.users.find? (fun u => u.id == userId)).map upd,
   s.users.map (fun u => if u.id == userId then upd u else u))

/-- `employeeCTC.findOneAndUpdate({employeeId}, {...}, {new: true, upsert:
true})`: update the matching CTC document, or insert a fresh one (with no
`effectiveDate` set) when none matches; returns the resulting document. -/
def upsertCtc (s : Store) (userId : String) (b : EmpBody) :
    CompensationRecord × List CompensationRecord :=
  let upd := fun (c : CompensationRecord) =>
    { c with annualCTC := b.annualCTC, monthlyInHand := b.monthlyInHand,
             otherComponents := ctcComponents b }
  match s.ctcs.find? (fun c => c.employeeId == userId) with
  | some c =>
    (upd c, s.ctcs.map (fun c' => if c'.employeeId == userId then upd c' else c'))
  | none =>
    let fresh : CompensationRecord :=
      { employeeId := userId, annualCTC := b.annualCTC,
        monthlyInHand := b.monthlyInHand, effectiveDate := .undefined,
        otherComponents := ctcComponents b }
    (fresh, s.ctcs ++ [fresh])

/-- `editEmployee`: role gate; ObjectId validation; missing-field check over
the 15 required names; then the user update and the CTC upsert are issued
together (`Promise.all`) — both writes commit before the not-found check, so
a missing user still leaves the upserted CTC document behind. -/
def editEmployee (userRole : String) (userId : String) (b : EmpBody) (s : Store) :
    HResp EditEmployeeBody × Store :=
  if ¬ (userRole = "admin" ∨ userRole = "hr") then
    (.error 403 "Unauthorized access", s)
  else if ¬ isValidObjectId userId then
    (.error 400 "Invalid User ID", s)
  else
    let missingFields := editRequiredFields.filter (fun f => ! truthy (getField b f))
    if missingFields ≠ [] then
      (.error 400 ("Missing fields: " ++ String.intercalate ", " missingFields), s)
    else
      let (updatedUser, users') := updateUserById s userId b
      let (updatedCTC, ctcs') := upsertCtc s userId b
      let s' := { s with users := users', ctcs := ctcs' }
      match updatedUser with
      | none => (.error 404 "Employee not found", s')
      | some u =>
        (.success 200 ⟨"Employee data updated successfully", u, updatedCTC⟩, s')

/-- Success body of `deleteEmployee`. -/
structure DeleteEmployeeBody where
  success : Bool
  message : String
deriving DecidableEq, Repr

/-- `deleteEmployee`: role gate; id validation; `findByIdAndDelete`; 404 when
absent, otherwise removes the document and confirms with the employee's
name. -/
def deleteEmployee (role : String) (id : Option String) (s : Store) :
    HResp DeleteEmployeeBody × Store :=
  if ¬ (role = "admin" ∨ role = "hr") then
    (.error 403 "You don't have permission to access this API.", s)
  else
    match id with
    | none => (.error 400 "A valid Employee ID is required.", s)
    | some i =>
      if i = "" ∨ ¬ isValidObjectId i then
        (.error 400 "A valid Employee ID is required.", s)
      else
        match findUser s i with
        | none =>
          (.error 404 "Employee does not exist or may have already been deleted.", s)
        | some u =>
          (.success 200
            ⟨true, "Employee " ++ jsToString u.firstName ++ " " ++
              jsToString u.lastName ++ " deleted successfully!"⟩,
           { s with users := s.users.filter (fun v => !(v.id == i)) })

/-- `getAllLeaveApplications`: role gate; every leave application with its
employee document populated (password excluded). -/
def getAllLeaveApplications (role : String) (s : Store) :
    HResp (List (LeaveRecord × Option EmployeeRecord)) × Store :=
  if ¬ (role = "admin" ∨ role = "hr") then
    (.error 403 "You don't have permission to access this API.", s)
  else
    (.success 200 (s.leaves.map (fun l =>
      (l, (findUser s l.employeeId).map stripPassword))), s)

/-- Success body of `updateLeaveApplicationStatus`. -/
structure UpdateLeaveBody where
  message : String
  leaveApplication : LeaveRecord
deriving DecidableEq, Repr

/-- `updateLeaveApplicationStatus`: role gate; `findById` (404 before status
validation); status must equal `"Approved"` or `"Rejected"` (400 otherwise);
sets `status` and `hrComments` (`hrComments || ""`) with no check of the
prior state, saves, and returns the updated document. -/
def updateLeaveApplicationStatus (role : String) (id : String)
    (status hrComments : JSValue) (s : Store) : HResp UpdateLeaveBody × Store :=
  if ¬ (role = "admin" ∨ role = "hr") then
    (.error 403 "You don't have permission to perform this action.", s)
  else
    match findLeave s id with
    | none => (.error 404 "Leave application not found.", s)
    | some l =>
      if status ≠ .vStr "Approved" ∧ status ≠ .vStr "Rejected" then
        (.error 400 "Invalid action. Please use 'approve' or 'reject'.", s)
      else
        let updated : LeaveRecord :=
          { l with status := status, hrComments := jsOr hrComments (.vStr "") }
        let leaves' := s.leaves.map (fun l' => if l'.id == id then updated else l')
        let s' := { s with leaves := leaves' }
        (.success 200
          ⟨"Leave application " ++ jsToString status ++ "d successfully.", updated⟩,
         s')

/-- `getDateRange`: resolves a period tag to `{startDate, endDate}`.  In the
default (`today` / unrecognized) branch the source calls
`now.setHours(0,0,0,0)`, which mutates the `now` object before it is returned
as `endDate`; the embedding reproduces that aliasing, so both dates of that
branch are the local midnight. -/
def getDateRange (period : String) (now : JSDate) : JSDate × JSDate :=
  if period = "weekly" then
    (newDate (getFullYear now) (getMonth now) (getDate now - getDay now), now)
  else if period = "monthly" then
    (newDate (getFullYear now) (getMonth now) 1, now)
  else if period = "yearly" then
    (newDate (getFullYear now) 0 1, now)
  else
    let mutated : JSDate := { now with ms := 0 }
    (mutated, mutated)

/-- Success body of `getAttendance`. -/
structure AttendanceBody where
  attendanceData : List AttendanceEntry
  workedHours : Int
  totalWorkingHours : Int
deriving DecidableEq, Repr

/-- `req.query.period || "today"`: an absent or empty (falsy) period
defaults to `"today"`. -/
def resolvePeriod : Option String → String
  | none => "today"
  | some p => if p = "" then "today" else p

/-- `getAttendance`: defaults the period (`req.query.period || "today"`),
resolves the date range, fetches the user's entries with `date` in
`[startDate, endDate]` (`$gte`/`$lte` on timestamps), sums `duration || 0`,
and pairs it with the fixed expected-hours lookup. -/
def getAttendance (userId : String) (periodQ : Option String) (now : JSDate)
    (s : Store) : HResp AttendanceBody × Store :=
  let period := resolvePeriod periodQ
  let range := getDateRange period now
  let attendanceData := s.attendance.filter (fun a =>
    a.userId == userId && toMillis range.1 ≤ toMillis a.date &&
      toMillis a.date ≤ toMillis range.2)
  let workedHours := attendanceData.foldl (fun total r => total + r.duration.getD 0) 0
  let totalWorkingHours : Int :=
    if period = "weekly" then 5 * 8
    else if period = "monthly" then 20 * 8
    else if period = "yearly" then 240 * 8
    else 8
  (.success 200 ⟨attendanceData, workedHours, totalWorkingHours⟩, s)

/-! ### Spec-side definitions

The following definitions follow the spec's words, for comparison with the
source-derived handlers above. -/

/-- Spec-side: case-insensitive prefix test over character lists. -/
def isPrefixCI : List Char → List Char → Bool
  | [], _ => true
  | _ :: _, [] => false
  | p :: ps, c :: cs => p.toLower == c.toLower && isPrefixCI ps cs

/-- Spec-side: "contains the query as a case-insensitive substring". -/
def containsCI (needle : List Char) : List Char → Bool
  | [] => isPrefixCI needle []
  | c :: cs => isPrefixCI needle (c :: cs) || containsCI needle cs

/-- Spec-side: case-insensitive substring containment against a document
field (string fields only, matching the store's semantics). -/
def jsContainsCI (q : String) : JSValue → Bool
  | .vStr s => containsCI q.toList s.toList
  | _ => false

/-- Spec-side: the fixed expected-hours lookup table, `today=8, weekly=40,
monthly=160, yearly=1920`, with the default for unrecognized periods. -/
def specTotalWorkingHours (p : String) : Int :=
  if p = "weekly" then 40
  else if p = "monthly" then 160
  else if p = "yearly" then 1920
  else 8

/-! ### Concrete fixtures used by witnesses and counterexamples -/

/-- A store with no documents. -/
def emptyStore : Store := ⟨[], [], [], [], 0⟩

/-- A fully-populated add/edit request body (every required field truthy). -/
def exBody : EmpBody :=
  { firstName := .vStr "Ada", lastName := .vStr "Lovelace",
    email := .vStr "ada@example.com", password := .vStr "hunter2",
    position := .vStr "Engineer", joiningDate := .vStr "2024-01-01",
    role := .vStr "employee", annualCTC := .vNum 100000,
    monthlyInHand := .vNum 6000, housingAllowance := .vNum 500,
    transportAllowance := .vNum 100, mealAllowance := .vNum 50,
    performanceBonus := .vNum 1000, yearEndBonus := .vNum 2000,
    tax := .vNum 300, healthInsurance := .vNum 200, providentFund := .vNum 150 }

/-- The employee document stored by `addEmployee "hr" exBody emptyStore`. -/
def exStoredUser : EmployeeRecord :=
  { id := objectIdOf 0, firstName := .vStr "Ada", lastName := .vStr "Lovelace",
    email := .vStr "ada@example.com", password := .vStr "$2a$10$hunter2",
    position := .vStr "Engineer", joiningDate := .vStr "2024-01-01",
    role := .vStr "employee", totalPerformance := 0 }

/-- An employee document whose name fields contain `"abc"`. -/
def exSearchEmp : EmployeeRecord :=
  { id := objectIdOf 0, firstName := .vStr "abc", lastName := .vStr "Smith",
    email := .vStr "abc@example.com", password := .vStr "$2a$10$h",
    position := .vStr "Dev", joiningDate := .undefined, role := .vStr "employee",
    totalPerformance := 0 }

/-- A store holding only `exSearchEmp`. -/
def searchStore : Store := ⟨[exSearchEmp], [], [], [], 1⟩

/-- A pending leave application. -/
def exLeave : LeaveRecord :=
  ⟨objectIdOf 5, objectIdOf 0, .vStr "Pending", .undefined⟩

/-- A store holding only `exLeave`. -/
def leaveStore : Store := ⟨[], [], [exLeave], [], 6⟩

/-- The employee document `addEmployee` creates for a body whose password is
the string `pw`, under the fresh id `uid`. -/
def createdUser (uid : String) (b : EmpBody) (pw : String) : EmployeeRecord :=
  { id := uid, firstName := b.firstName, lastName := b.lastName, email := b.email,
    password := .vStr ("$2a$10$" ++ pw), position := b.position,
    joiningDate := b.joiningDate, role := .vStr "employee", totalPerformance := 0 }

/-- The CTC document `addEmployee` creates alongside `createdUser`. -/
def createdCtc (uid : String) (b : EmpBody) : CompensationRecord :=
  { employeeId := uid, annualCTC := b.annualCTC, monthlyInHand := b.monthlyInHand,
    effectiveDate := b.joiningDate, otherComponents := ctcComponents b }

/-! ### Helper lemmas -/

theorem hexDigit_isHex {d : Nat} (h : d < 16) : isHexChar (hexDigit d) = true := by
  have hall : ∀ d', d' < 16 → isHexChar (hexDigit d') = true := by decide
  exact hall d h

theorem isValidObjectId_objectIdOf (n : Nat) : isValidObjectId (objectIdOf n) = true := by
  have hlen : (objectIdOf n).length = 24 := by
    simp [objectIdOf, String.length]
  simp only [isValidObjectId, hlen, beq_self_eq_true, Bool.true_and]
  rw [List.all_eq_true]
  intro c hc
  have htl : (objectIdOf n).toList
      = (List.range 24).reverse.map (fun i => hexDigit (n / 16 ^ i % 16)) := rfl
  rw [htl, List.mem_map] at hc
  obtain ⟨i, _, rfl⟩ := hc
  exact hexDigit_isHex (Nat.mod_lt _ (by norm_num))

theorem find?_append_of_none {α} (p : α → Bool) {l₁ : List α} (l₂ : List α)
    (h : l₁.find? p = none) : (l₁ ++ l₂).find? p = l₂.find? p := by
  rw [List.find?_append, h, Option.none_or]

theorem find?_replace {α} (p : α → Bool) (upd : α) (hupd : p upd = true) :
    ∀ l : List α, (l.find? p).isSome →
      (l.map fun a => if p a then upd else a).find? p = some upd := by
  intro l
  induction l with
  | nil => simp
  | cons a t ih =>
    intro hs
    by_cases h : p a = true
    · simp [List.find?_cons, h, hupd]
    · have h' : p a = false := by simpa using h
      have hs' : (t.find? p).isSome := by
        simpa [List.find?_cons, h'] using hs
      simpa [List.map_cons, List.find?_cons, h'] using ih hs'

theorem map_replace_idem {α} (p : α → Bool) (upd : α) (hupd : p upd = true)
    (l : List α) :
    ((l.map fun a => if p a then upd else a).map fun a => if p a then upd else a)
      = l.map fun a => if p a then upd else a := by
  rw [List.map_map]
  refine List.map_congr_left ?_
  intro a _
  by_cases h : p a <;> simp [Function.comp, h, hupd]

theorem map_id_of_no_match {α} (p : α → Bool) (g : α → α) (l : List α)
    (h : ∀ a ∈ l, p a = false) :
    (l.map fun a => if p a then g a else a) = l := by
  conv_rhs => rw [← List.map_id l]
  refine List.map_congr_left ?_
  intro a ha
  simp [h a ha]

theorem foldl_add_getD (l : List AttendanceEntry) :
    ∀ init : Int, l.foldl (fun total r => total + r.duration.getD 0) init
      = init + (l.map fun r => r.duration.getD 0).sum := by
  induction l with
  | nil => intro init; simp
  | cons a t ih =>
    intro init
    simp only [List.foldl_cons, List.map_cons, List.sum_cons, ih]
    ring

theorem matchHere_eq_isPrefixCI {p : List Char} (hp : '.' ∉ p) :
    ∀ t, matchHere p t = isPrefixCI p t := by
  induction p with
  | nil => intro t; cases t <;> rfl
  | cons c ps ih =>
    have hcne : c ≠ '.' := by intro h; exact hp (by simp [h])
    have hc : (c == '.') = false := beq_eq_false_iff_ne.2 hcne
    have hps : '.' ∉ ps := fun h => hp (List.mem_cons_of_mem _ h)
    intro t
    cases t with
    | nil => rfl
    | cons d ds => simp [matchHere, isPrefixCI, hc, ih hps]

theorem regexTest_eq_containsCI {p : List Char} (hp : '.' ∉ p) :
    ∀ t, regexTest p t = containsCI p t := by
  intro t
  induction t with
  | nil =>
    show (matchHere p [] || false) = isPrefixCI p []
    simp [matchHere_eq_isPrefixCI hp]
  | cons c cs ih =>
    show (matchHere p (c :: cs) || regexTest p cs)
        = (isPrefixCI p (c :: cs) || containsCI p cs)
    rw [matchHere_eq_isPrefixCI hp, ih]

theorem jsTest_eq_jsContainsCI {q : String} (hq : '.' ∉ q.toList) (v : JSValue) :
    jsTest q v = jsContainsCI q v := by
  cases v with
  | vStr s => exact regexTest_eq_containsCI hq s.toList
  | undefined => rfl
  | vNull => rfl
  | vBool b => rfl
  | vNum n => rfl

/-! ### Claim theorems -/

/-- **C1.**  Every protected operation (list employees, get one, add, edit,
delete, list leave applications, update leave status), invoked by a principal
whose role is neither `"hr"` nor `"admin"`, answers Forbidden (403) and
leaves the store untouched. -/
theorem c1_forbidden_no_mutation (role : String) (s : Store) (id : Option String)
    (lid uid : String) (b : EmpBody) (status hrComments : JSValue)
    (h1 : role ≠ "hr") (h2 : role ≠ "admin") :
    getEmployees role s = (.error 403 "You are not allowed to access this API.", s) ∧
    getEmployee role id s = (.error 403 "Access denied.", s) ∧
    addEmployee role b s =
      (.error 403 "You do not have permission to access this API", s) ∧
    editEmployee role uid b s = (.error 403 "Unauthorized access", s) ∧
    deleteEmployee role id s =
      (.error 403 "You don't have permission to access this API.", s) ∧
    getAllLeaveApplications role s =
      (.error 403 "You don't have permission to access this API.", s) ∧
    updateLeaveApplicationStatus role lid status hrComments s =
      (.error 403 "You don't have permission to perform this action.", s) := by
  refine ⟨?_, ?_, ?_, ?_, ?_, ?_, ?_⟩ <;>
    simp [getEmployees, getEmployee, addEmployee, editEmployee, deleteEmployee,
      getAllLeaveApplications, updateLeaveApplicationStatus, h1, h2]

/-- Witness for C1 at role `"employee"`. -/
theorem c1_forbidden_no_mutation_witness :
    ("employee" ≠ "hr" ∧ "employee" ≠ "admin") ∧
    (getEmployees "employee" emptyStore =
      (.error 403 "You are not allowed to access this API.", emptyStore) ∧
    getEmployee "employee" none emptyStore =
      (.error 403 "Access denied.", emptyStore) ∧
    addEmployee "employee" exBody emptyStore =
      (.error 403 "You do not have permission to access this API", emptyStore) ∧
    editEmployee "employee" (objectIdOf 9) exBody emptyStore =
      (.error 403 "Unauthorized access", emptyStore) ∧
    deleteEmployee "employee" none emptyStore =
      (.error 403 "You don't have permission to access this API.", emptyStore) ∧
    getAllLeaveApplications "employee" emptyStore =
      (.error 403 "You don't have permission to access this API.", emptyStore) ∧
    updateLeaveApplicationStatus "employee" (objectIdOf 5) (.vStr "Approved")
        .undefined emptyStore =
      (.error 403 "You don't have permission to perform this action.", emptyStore)) :=
  ⟨⟨by decide, by decide⟩,
   c1_forbidden_no_mutation "employee" emptyStore none (objectIdOf 5) (objectIdOf 9)
     exBody (.vStr "Approved") .undefined (by decide) (by decide)⟩

/-- **C2 (counterexample).**  The claim as stated is false: after a concrete
successful add-employee, the get-employee response for the returned id is the
full stored document, whose password field is present (it holds the hashed
secret), not excluded. -/
theorem c2_counterexample :
    getEmployee "hr" (some (objectIdOf 0)) (addEmployee "hr" exBody emptyStore).2 =
      (.success 200 exStoredUser, (addEmployee "hr" exBody emptyStore).2) ∧
    exStoredUser.password = .vStr "$2a$10$hunter2" ∧
    exStoredUser.password ≠ .undefined :=
  ⟨by decide, rfl, by decide⟩

/-- **C2 (amended).**  An add-employee call by hr with all required fields
and a string password, on a store where the fresh id is unused, succeeds; a
subsequent get-employee with the returned id yields a record whose visible
fields equal the submitted fields and whose credential secret is excluded
from the add-employee response but present — hashed — in the get-employee
response. -/
theorem c2_add_get_roundtrip (s : Store) (b : EmpBody) (pw : String)
    (hfresh : ∀ u ∈ s.users, (u.id == objectIdOf s.nextId) = false)
    (hfields : ∀ f ∈ addRequiredFields, truthy (getField b f) = true)
    (hpw : b.password = .vStr pw) :
    ∃ e s',
      addEmployee "hr" b s =
        (.success 201
          { message := "Employee added successfully!",
            user :=
              { id := objectIdOf s.nextId, firstName := b.firstName,
                lastName := b.lastName, email := b.email,
                role := .vStr "employee", position := b.position },
            employeeCTC := createdCtc (objectIdOf s.nextId) b }, s') ∧
      getEmployee "hr" (some (objectIdOf s.nextId)) s' = (.success 200 e, s') ∧
      e.firstName = b.firstName ∧ e.lastName = b.lastName ∧ e.email = b.email ∧
      e.position = b.position ∧ e.joiningDate = b.joiningDate ∧
      e.password = .vStr ("$2a$10$" ++ pw) ∧ e.password ≠ b.password ∧
      e.password ≠ .undefined := by
  have hfil : (addRequiredFields.filter fun f => ! truthy (getField b f)) = [] :=
    List.filter_eq_nil_iff.2 (by intro f hf; simp [hfields f hf])
  have hhash : bcryptHash b.password = .ok ("$2a$10$" ++ pw) := by rw [hpw]; rfl
  have h7 : ("$2a$10$" : String).length = 7 := rfl
  have hne : ("$2a$10$" ++ pw : String) ≠ pw := by
    intro h
    have hl := congrArg String.length h
    rw [String.length_append, h7] at hl
    omega
  refine ⟨createdUser (objectIdOf s.nextId) b pw,
    { s with
      users := s.users ++ [createdUser (objectIdOf s.nextId) b pw],
      ctcs := s.ctcs ++ [createdCtc (objectIdOf s.nextId) b],
      nextId := s.nextId + 1 }, ?_, ?_, rfl, rfl, rfl, rfl, rfl, rfl, ?_, ?_⟩
  · have hguard : ¬ ¬ (("hr" : String) = "admin" ∨ ("hr" : String) = "hr") := by simp
    simp only [addEmployee, if_neg hguard, hfil, hhash]
    rw [if_neg (show ¬ (([] : List String) ≠ []) from fun h => h rfl)]
    rfl
  · have hguard2 : ¬ ¬ (("hr" : String) = "hr" ∨ ("hr" : String) = "admin") := by simp
    have hvalid := isValidObjectId_objectIdOf s.nextId
    have hnempty : ¬ (objectIdOf s.nextId = "") := by
      intro h
      have hl := congrArg String.length h
      simp [objectIdOf, String.length] at hl
    have hfindnone : s.users.find? (fun u => u.id == objectIdOf s.nextId) = none :=
      List.find?_eq_none.2 (by intro u hu; simp [hfresh u hu])
    have hfind : findUser
        { s with
          users := s.users ++ [createdUser (objectIdOf s.nextId) b pw],
          ctcs := s.ctcs ++ [createdCtc (objectIdOf s.nextId) b],
          nextId := s.nextId + 1 } (objectIdOf s.nextId) =
        some (createdUser (objectIdOf s.nextId) b pw) := by
      unfold findUser
      rw [show ({ s with
          users := s.users ++ [createdUser (objectIdOf s.nextId) b pw],
          ctcs := s.ctcs ++ [createdCtc (objectIdOf s.nextId) b],
          nextId := s.nextId + 1 } : Store).users =
        s.users ++ [createdUser (objectIdOf s.nextId) b pw] from rfl]
      rw [find?_append_of_none _ _ hfindnone]
      simp [List.find?, createdUser]
    simp only [getEmployee, if_neg hguard2, if_neg hnempty,
      if_neg (not_not_intro hvalid), hfind]
    simp
  · rw [hpw]
    simp [createdUser, hne]
  · simp [createdUser]

/-- Witness for the amended C2 on the concrete `exBody` over the empty
store. -/
theorem c2_add_get_roundtrip_witness :
    (∀ u ∈ emptyStore.users, (u.id == objectIdOf emptyStore.nextId) = false) ∧
    (∀ f ∈ addRequiredFields, truthy (getField exBody f) = true) ∧
    exBody.password = .vStr "hunter2" ∧
    (∃ e s',
      addEmployee "hr" exBody emptyStore =
        (.success 201
          { message := "Employee added successfully!",
            user :=
              { id := objectIdOf emptyStore.nextId,
                firstName := exBody.firstName, lastName := exBody.lastName,
                email := exBody.email, role := .vStr "employee",
                position := exBody.position },
            employeeCTC := createdCtc (objectIdOf emptyStore.nextId) exBody }, s') ∧
      getEmployee "hr" (some (objectIdOf emptyStore.nextId)) s' =
        (.success 200 e, s') ∧
      e.firstName = exBody.firstName ∧ e.lastName = exBody.lastName ∧
      e.email = exBody.email ∧ e.position = exBody.position ∧
      e.joiningDate = exBody.joiningDate ∧
      e.password = .vStr ("$2a$10$" ++ "hunter2") ∧
      e.password ≠ exBody.password ∧ e.password ≠ .undefined) :=
  ⟨by decide, by decide, rfl,
   c2_add_get_roundtrip emptyStore exBody "hunter2" (by decide) (by decide) rfl⟩

/-- **C3.**  An add-employee call by an hr/admin principal with any of the 14
required fields missing (JS-falsy) answers BadRequest naming exactly the
missing fields and creates no employee and no compensation record (the store
is unchanged). -/
theorem c3_missing_fields_rejected (role : String) (b : EmpBody) (s : Store)
    (hrole : role = "hr" ∨ role = "admin")
    (hmiss : ∃ f ∈ addRequiredFields, truthy (getField b f) = false) :
    addEmployee role b s =
      (.error 400 ("All fields are required! Missing fields: " ++
        String.intercalate ", "
          (addRequiredFields.filter fun f => ! truthy (getField b f))), s) ∧
    ∀ f, f ∈ (addRequiredFields.filter fun f => ! truthy (getField b f)) ↔
      (f ∈ addRequiredFields ∧ truthy (getField b f) = false) := by
  have hne : (addRequiredFields.filter fun f => ! truthy (getField b f)) ≠ [] := by
    obtain ⟨f, hf, hfv⟩ := hmiss
    exact List.ne_nil_of_mem (List.mem_filter.2 ⟨hf, by simp [hfv]⟩)
  constructor
  · rcases hrole with h | h <;> subst h <;> simp [addEmployee, hne]
  · intro f
    rw [List.mem_filter]
    simp

/-- Witness for C3: a body whose `tax` field is absent. -/
theorem c3_missing_fields_rejected_witness :
    (("hr" : String) = "hr" ∨ ("hr" : String) = "admin") ∧
    (∃ f ∈ addRequiredFields, truthy (getField { exBody with tax := .undefined } f) = false) ∧
    (addEmployee "hr" { exBody with tax := .undefined } emptyStore =
      (.error 400 ("All fields are required! Missing fields: " ++
        String.intercalate ", "
          (addRequiredFields.filter fun f =>
            ! truthy (getField { exBody with tax := .undefined } f))), emptyStore) ∧
    ∀ f, f ∈ (addRequiredFields.filter fun f =>
        ! truthy (getField { exBody with tax := .undefined } f)) ↔
      (f ∈ addRequiredFields ∧
        truthy (getField { exBody with tax := .undefined } f) = false)) :=
  ⟨Or.inl rfl, by decide,
   c3_missing_fields_rejected "hr" { exBody with tax := .undefined } emptyStore
     (Or.inl rfl) (by decide)⟩

/-- **C9.**  The presence check tests JS falsiness: a required field supplied
as the number `0` or as the empty string is reported missing, and both
add-employee and edit-employee reject the call with BadRequest, naming the
field among the missing ones. -/
theorem c9_falsy_fields_reported_missing (role f uid : String) (b : EmpBody)
    (s : Store) (hrole : role = "hr" ∨ role = "admin")
    (hvalid : isValidObjectId uid = true)
    (hval : getField b f = .vNum 0 ∨ getField b f = .vStr "") :
    (f ∈ addRequiredFields →
      addEmployee role b s =
        (.error 400 ("All fields are required! Missing fields: " ++
          String.intercalate ", "
            (addRequiredFields.filter fun f' => ! truthy (getField b f'))), s) ∧
      f ∈ (addRequiredFields.filter fun f' => ! truthy (getField b f'))) ∧
    (f ∈ editRequiredFields →
      editEmployee role uid b s =
        (.error 400 ("Missing fields: " ++
          String.intercalate ", "
            (editRequiredFields.filter fun f' => ! truthy (getField b f'))), s) ∧
      f ∈ (editRequiredFields.filter fun f' => ! truthy (getField b f'))) := by
  have hfalse : truthy (getField b f) = false := by
    rcases hval with h | h <;> simp [h, truthy]
  constructor
  · intro hf
    have hmem : f ∈ (addRequiredFields.filter fun f' => ! truthy (getField b f')) :=
      List.mem_filter.2 ⟨hf, by simp [hfalse]⟩
    have hne := List.ne_nil_of_mem hmem
    refine ⟨?_, hmem⟩
    rcases hrole with h | h <;> subst h <;> simp [addEmployee, hne]
  · intro hf
    have hmem : f ∈ (editRequiredFields.filter fun f' => ! truthy (getField b f')) :=
      List.mem_filter.2 ⟨hf, by simp [hfalse]⟩
    have hne := List.ne_nil_of_mem hmem
    refine ⟨?_, hmem⟩
    rcases hrole with h | h <;> subst h <;> simp [editEmployee, hvalid, hne]

/-- Witness for C9: `tax = 0` is reported missing by both endpoints. -/
theorem c9_falsy_fields_reported_missing_witness :
    (("hr" : String) = "hr" ∨ ("hr" : String) = "admin") ∧
    isValidObjectId (objectIdOf 9) = true ∧
    (getField { exBody with tax := .vNum 0 } "tax" = .vNum 0 ∨
      getField { exBody with tax := .vNum 0 } "tax" = .vStr "") ∧
    (("tax" ∈ addRequiredFields →
      addEmployee "hr" { exBody with tax := .vNum 0 } emptyStore =
        (.error 400 ("All fields are required! Missing fields: " ++
          String.intercalate ", "
            (addRequiredFields.filter fun f' =>
              ! truthy (getField { exBody with tax := .vNum 0 } f'))), emptyStore) ∧
      "tax" ∈ (addRequiredFields.filter fun f' =>
        ! truthy (getField { exBody with tax := .vNum 0 } f'))) ∧
    ("tax" ∈ editRequiredFields →
      editEmployee "hr" (objectIdOf 9) { exBody with tax := .vNum 0 } emptyStore =
        (.error 400 ("Missing fields: " ++
          String.intercalate ", "
            (editRequiredFields.filter fun f' =>
              ! truthy (getField { exBody with tax := .vNum 0 } f'))), emptyStore) ∧
      "tax" ∈ (editRequiredFields.filter fun f' =>
        ! truthy (getField { exBody with tax := .vNum 0 } f')))) :=
  ⟨Or.inl rfl, isValidObjectId_objectIdOf 9, Or.inl rfl,
   c9_falsy_fields_reported_missing "hr" "tax" (objectIdOf 9)
     { exBody with tax := .vNum 0 } emptyStore (Or.inl rfl)
     (isValidObjectId_objectIdOf 9) (Or.inl rfl)⟩

/-- **C4.**  For an existing leave application and an hr/admin principal,
applying update-leave-status with `"Approved"` (same comments both times)
twice returns the same success response both times and leaves the store after
the second call exactly as after the first; in particular the second call on
the already-terminal record succeeds, and the terminal status and hrComments
are unchanged by it. -/
theorem c4_update_leave_idempotent (role id : String) (c : JSValue) (s : Store)
    (l0 : LeaveRecord) (hrole : role = "hr" ∨ role = "admin")
    (hfound : findLeave s id = some l0) :
    ∃ upd s',
      updateLeaveApplicationStatus role id (.vStr "Approved") c s =
        (.success 200 ⟨"Leave application Approvedd successfully.", upd⟩, s') ∧
      updateLeaveApplicationStatus role id (.vStr "Approved") c s' =
        (.success 200 ⟨"Leave application Approvedd successfully.", upd⟩, s') ∧
      upd.status = .vStr "Approved" ∧ upd.hrComments = jsOr c (.vStr "") := by
  have hfound0 : s.leaves.find? (fun l => l.id == id) = some l0 := hfound
  have hpl0 : (l0.id == id) = true := by
    have := List.find?_some hfound0
    simpa using this
  have hguard : ¬ ¬ (role = "admin" ∨ role = "hr") := by
    rcases hrole with h | h <;> simp [h]
  have hcond : ¬ (JSValue.vStr "Approved" ≠ JSValue.vStr "Approved" ∧
      JSValue.vStr "Approved" ≠ JSValue.vStr "Rejected") := by simp
  refine ⟨{ l0 with status := .vStr "Approved", hrComments := jsOr c (.vStr "") },
    { s with leaves := s.leaves.map fun l' => if l'.id == id then
        { l0 with status := .vStr "Approved", hrComments := jsOr c (.vStr "") }
      else l' }, ?_, ?_, rfl, rfl⟩
  · simp only [updateLeaveApplicationStatus, if_neg hguard, hfound, if_neg hcond]
    rfl
  · have hfound' : findLeave
        { s with leaves := s.leaves.map fun l' => if l'.id == id then
            { l0 with status := .vStr "Approved", hrComments := jsOr c (.vStr "") }
          else l' } id =
        some { l0 with status := .vStr "Approved", hrComments := jsOr c (.vStr "") } :=
      find?_replace (fun l : LeaveRecord => l.id == id)
        { l0 with status := .vStr "Approved", hrComments := jsOr c (.vStr "") }
        hpl0 s.leaves (by simp [hfound0])
    have h2 := map_replace_idem (fun l' : LeaveRecord => l'.id == id)
      { l0 with status := .vStr "Approved", hrComments := jsOr c (.vStr "") }
      hpl0 s.leaves
    simp only [updateLeaveApplicationStatus, if_neg hguard, hfound', if_neg hcond]
    show ((HResp.success 200
        { message := "Leave application Approvedd successfully.",
          leaveApplication :=
            { l0 with status := .vStr "Approved", hrComments := jsOr c (.vStr "") } },
      { s with leaves := (s.leaves.map fun l' : LeaveRecord => if l'.id == id then
            { l0 with status := .vStr "Approved", hrComments := jsOr c (.vStr "") }
          else l').map fun l' : LeaveRecord => if l'.id == id then
            { l0 with status := .vStr "Approved", hrComments := jsOr c (.vStr "") }
          else l' }) : HResp UpdateLeaveBody × Store) =
      ((HResp.success 200
        { message := "Leave application Approvedd successfully.",
          leaveApplication :=
            { l0 with status := .vStr "Approved", hrComments := jsOr c (.vStr "") } },
      { s with leaves := s.leaves.map fun l' : LeaveRecord => if l'.id == id then
          { l0 with status := .vStr "Approved", hrComments := jsOr c (.vStr "") }
        else l' }) : HResp UpdateLeaveBody × Store)
    rw [h2]

/-- Witness for C4 on a concrete pending leave application. -/
theorem c4_update_leave_idempotent_witness :
    (("hr" : String) = "hr" ∨ ("hr" : String) = "admin") ∧
    findLeave leaveStore (objectIdOf 5) = some exLeave ∧
    (∃ upd s',
      updateLeaveApplicationStatus "hr" (objectIdOf 5) (.vStr "Approved")
          (.vStr "ok") leaveStore =
        (.success 200 ⟨"Leave application Approvedd successfully.", upd⟩, s') ∧
      updateLeaveApplicationStatus "hr" (objectIdOf 5) (.vStr "Approved")
          (.vStr "ok") s' =
        (.success 200 ⟨"Leave application Approvedd successfully.", upd⟩, s') ∧
      upd.status = .vStr "Approved" ∧
      upd.hrComments = jsOr (.vStr "ok") (.vStr "")) :=
  ⟨Or.inl rfl, by decide,
   c4_update_leave_idempotent "hr" (objectIdOf 5) (.vStr "ok") leaveStore exLeave
     (Or.inl rfl) (by decide)⟩

/-- **C5 (counterexample).**  The claim as stated is false: the query is
interpreted as a regular expression, not a literal substring.  For the query
`"a.c"`, the employee whose fields are `"abc"` / `"Smith"` /
`"abc@example.com"` is returned although none of the three fields contains
`"a.c"` as a (case-insensitive) substring. -/
theorem c5_counterexample :
    search (some "a.c") searchStore = (.success 200 [exSearchEmp], searchStore) ∧
    exSearchEmp.firstName = .vStr "abc" ∧
    exSearchEmp.lastName = .vStr "Smith" ∧
    exSearchEmp.email = .vStr "abc@example.com" ∧
    containsCI "a.c".toList "abc".toList = false ∧
    containsCI "a.c".toList "Smith".toList = false ∧
    containsCI "a.c".toList "abc@example.com".toList = false := by
  decide

/-- **C5 (amended).**  An absent or empty query yields BadRequest; a
non-empty query returns exactly the role=employee records one of whose
`firstName`, `lastName`, `email` matches the query as a case-insensitive
regular expression — which, for queries built of alphanumeric characters
(no regex metacharacters), is exactly case-insensitive substring containment
(so a query matching zero employees yields an empty list with status
200). -/
theorem c5_search_substring_for_plain_queries (s : Store) (q : String)
    (hq : ¬ (q = "")) (hplain : ∀ c ∈ q.toList, Char.isAlphanum c = true) :
    search none s = (.error 400 "Query parameter is required", s) ∧
    search (some "") s = (.error 400 "Query parameter is required", s) ∧
    search (some q) s =
      (.success 200 (s.users.filter fun u =>
        u.role == .vStr "employee" &&
          (jsContainsCI q u.firstName || jsContainsCI q u.lastName ||
            jsContainsCI q u.email)), s) := by
  refine ⟨rfl, by simp [search], ?_⟩
  have hdot : '.' ∉ q.toList := by
    intro h
    have h1 := hplain _ h
    have h2 : ('.').isAlphanum = false := by decide
    rw [h2] at h1
    exact Bool.false_ne_true h1
  have hcong : ∀ u ∈ s.users,
      (u.role == JSValue.vStr "employee" &&
        (jsTest q u.firstName || jsTest q u.lastName || jsTest q u.email))
      = (u.role == JSValue.vStr "employee" &&
        (jsContainsCI q u.firstName || jsContainsCI q u.lastName ||
          jsContainsCI q u.email)) := by
    intro u _
    rw [jsTest_eq_jsContainsCI hdot, jsTest_eq_jsContainsCI hdot,
      jsTest_eq_jsContainsCI hdot]
  simp only [search, if_neg hq]
  rw [List.filter_congr hcong]

/-- Witness for the amended C5 on the query `"abc"` over `searchStore`. -/
theorem c5_search_substring_for_plain_queries_witness :
    (¬ (("abc" : String) = "")) ∧
    (∀ c ∈ ("abc" : String).toList, Char.isAlphanum c = true) ∧
    (search none searchStore =
      (.error 400 "Query parameter is required", searchStore) ∧
    search (some "") searchStore =
      (.error 400 "Query parameter is required", searchStore) ∧
    search (some "abc") searchStore =
      (.success 200 (searchStore.users.filter fun u =>
        u.role == .vStr "employee" &&
          (jsContainsCI "abc" u.firstName || jsContainsCI "abc" u.lastName ||
            jsContainsCI "abc" u.email)), searchStore)) :=
  ⟨by decide, by decide,
   c5_search_substring_for_plain_queries searchStore "abc" (by decide) (by decide)⟩

/-- **C6.**  An edit-employee call by hr/admin with all 15 fields present and
a well-formed id that matches no employee answers NotFound and leaves the
employee collection unchanged, yet the CTC upsert keyed by that id is still
committed: afterwards the store holds a compensation record carrying that
(orphan) employeeId and the submitted compensation fields. -/
theorem c6_edit_notfound_commits_orphan_ctc (role uid : String) (b : EmpBody)
    (s : Store) (hrole : role = "hr" ∨ role = "admin")
    (hvalid : isValidObjectId uid = true)
    (hfields : ∀ f ∈ editRequiredFields, truthy (getField b f) = true)
    (hnouser : ∀ u ∈ s.users, (u.id == uid) = false) :
    (editEmployee role uid b s).1 = .error 404 "Employee not found" ∧
    (editEmployee role uid b s).2.users = s.users ∧
    ∃ c ∈ (editEmployee role uid b s).2.ctcs,
      c.employeeId = uid ∧ c.annualCTC = b.annualCTC ∧
      c.monthlyInHand = b.monthlyInHand ∧
      c.otherComponents = ctcComponents b := by
  have hguard : ¬ ¬ (role = "admin" ∨ role = "hr") := by
    rcases hrole with h | h <;> simp [h]
  have hfil : (editRequiredFields.filter fun f => ! truthy (getField b f)) = [] :=
    List.filter_eq_nil_iff.2 (by intro f hf; simp [hfields f hf])
  have hfindnone : s.users.find? (fun u => u.id == uid) = none :=
    List.find?_eq_none.2 (by intro u hu; simp [hnouser u hu])
  have hctc : ∃ c ∈ (upsertCtc s uid b).2,
      c.employeeId = uid ∧ c.annualCTC = b.annualCTC ∧
      c.monthlyInHand = b.monthlyInHand ∧
      c.otherComponents = ctcComponents b := by
    unfold upsertCtc
    cases hf : s.ctcs.find? (fun c => c.employeeId == uid) with
    | none =>
      exact ⟨{ employeeId := uid, annualCTC := b.annualCTC,
               monthlyInHand := b.monthlyInHand, effectiveDate := .undefined,
               otherComponents := ctcComponents b }, by simp, rfl, rfl, rfl, rfl⟩
    | some c0 =>
      have hc0 : (c0.employeeId == uid) = true := by
        have := List.find?_some hf
        simpa using this
      have hmem : c0 ∈ s.ctcs := List.mem_of_find?_eq_some hf
      refine ⟨{ c0 with
                annualCTC := b.annualCTC,
                monthlyInHand := b.monthlyInHand,
                otherComponents := ctcComponents b },
        ?_, ?_, rfl, rfl, rfl⟩
      · exact List.mem_map.2 ⟨c0, hmem, by simp [hc0]⟩
      · simpa using hc0
  have hmain : editEmployee role uid b s =
      (.error 404 "Employee not found",
        { s with
          users := s.users.map fun u =>
            if u.id == uid then
              { u with
                firstName := b.firstName, lastName := b.lastName,
                email := b.email, role := b.role, position := b.position,
                joiningDate := b.joiningDate }
            else u,
          ctcs := (upsertCtc s uid b).2 }) := by
    simp only [editEmployee, if_neg hguard, if_neg (not_not_intro hvalid), hfil,
      updateUserById, hfindnone]
    rw [if_neg (show ¬ (([] : List String) ≠ []) from fun h => h rfl)]
    rfl
  refine ⟨by rw [hmain], ?_, ?_⟩
  · rw [hmain]
    exact map_id_of_no_match (fun u : EmployeeRecord => u.id == uid) _ s.users hnouser
  · rw [hmain]
    exact hctc

/-- Witness for C6: a valid unused id over the empty store. -/
theorem c6_edit_notfound_commits_orphan_ctc_witness :
    (("hr" : String) = "hr" ∨ ("hr" : String) = "admin") ∧
    isValidObjectId (objectIdOf 9) = true ∧
    (∀ f ∈ editRequiredFields, truthy (getField exBody f) = true) ∧
    (∀ u ∈ emptyStore.users, (u.id == objectIdOf 9) = false) ∧
    ((editEmployee "hr" (objectIdOf 9) exBody emptyStore).1 =
      .error 404 "Employee not found" ∧
    (editEmployee "hr" (objectIdOf 9) exBody emptyStore).2.users =
      emptyStore.users ∧
    ∃ c ∈ (editEmployee "hr" (objectIdOf 9) exBody emptyStore).2.ctcs,
      c.employeeId = objectIdOf 9 ∧ c.annualCTC = exBody.annualCTC ∧
      c.monthlyInHand = exBody.monthlyInHand ∧
      c.otherComponents = ctcComponents exBody) :=
  ⟨Or.inl rfl, isValidObjectId_objectIdOf 9, by decide, by decide,
   c6_edit_notfound_commits_orphan_ctc "hr" (objectIdOf 9) exBody emptyStore
     (Or.inl rfl) (isValidObjectId_objectIdOf 9) (by decide) (by decide)⟩

/-- **C7.**  Evaluation of `getDateRange` at the failing input: at the local
instant 2024-10-09 10:20:30 (day 20005 since epoch, 37230000 ms into the
day), the `"weekly"`, `"monthly"` and `"yearly"` windows end at the current
instant and start at the most recent Sunday midnight / first of month /
January 1 respectively, but the `"today"` branch (and any unrecognized tag,
e.g. `"Today"`) returns `endDate` equal to the local midnight — not the
current instant — because `setHours` mutates the `now` object before it is
returned. -/
theorem c7_today_enddate_is_midnight :
    getDateRange "today" ⟨20005, 37230000⟩ = (⟨20005, 0⟩, ⟨20005, 0⟩) ∧
    (⟨20005, 0⟩ : JSDate) ≠ ⟨20005, 37230000⟩ ∧
    getDateRange "weekly" ⟨20005, 37230000⟩ = (⟨20002, 0⟩, ⟨20005, 37230000⟩) ∧
    getDay ⟨20002, 0⟩ = 0 ∧
    getDay ⟨20005, 37230000⟩ = 3 ∧
    getDateRange "monthly" ⟨20005, 37230000⟩ = (⟨19997, 0⟩, ⟨20005, 37230000⟩) ∧
    civilFromDays 19997 = (2024, 9, 1) ∧
    getDateRange "yearly" ⟨20005, 37230000⟩ = (⟨19723, 0⟩, ⟨20005, 37230000⟩) ∧
    civilFromDays 19723 = (2024, 0, 1) ∧
    getDateRange "Today" ⟨20005, 37230000⟩ = (⟨20005, 0⟩, ⟨20005, 0⟩) := by
  decide

/-- **C8.**  For every `getAttendance` call, the store is unchanged, the
returned entries are exactly the user's entries whose date lies in
`[startDate, endDate]` inclusive, `workedHours` is the sum of their duration
fields (absent durations counting 0), and `totalWorkingHours` is the fixed
lookup `today=8 (also unrecognized), weekly=40, monthly=160, yearly=1920`. -/
theorem c8_attendance_aggregation (userId : String) (periodQ : Option String)
    (now : JSDate) (s : Store) :
    ∃ body,
      getAttendance userId periodQ now s = (.success 200 body, s) ∧
      body.attendanceData = s.attendance.filter (fun a =>
        a.userId == userId &&
          toMillis (getDateRange (resolvePeriod periodQ) now).1 ≤ toMillis a.date &&
          toMillis a.date ≤ toMillis (getDateRange (resolvePeriod periodQ) now).2) ∧
      body.workedHours = (body.attendanceData.map fun r => r.duration.getD 0).sum ∧
      body.totalWorkingHours = specTotalWorkingHours (resolvePeriod periodQ) := by
  refine ⟨_, rfl, rfl, ?_, ?_⟩
  · show (s.attendance.filter _).foldl (fun total r => total + r.duration.getD 0) 0
        = _
    rw [foldl_add_getD]
    simp
  · show (if resolvePeriod periodQ = "weekly" then (5 * 8 : Int)
      else if resolvePeriod periodQ = "monthly" then 20 * 8
      else if resolvePeriod periodQ = "yearly" then 240 * 8 else 8)
        = specTotalWorkingHours (resolvePeriod periodQ)
    unfold specTotalWorkingHours
    split_ifs <;> norm_num

/-- **C10.**  `"password"` is not among the 14 validated field names, so an
add-employee call by hr/admin with all 14 fields present but no password
passes validation and fails with Internal (500) when hashing the absent
secret throws; no record is created. -/
theorem c10_missing_password_internal_error (role : String) (b : EmpBody)
    (s : Store) (hrole : role = "hr" ∨ role = "admin")
    (hfields : ∀ f ∈ addRequiredFields, truthy (getField b f) = true)
    (hpw : b.password = .undefined) :
    "password" ∉ addRequiredFields ∧
    addEmployee role b s = (.error 500 "Internal Server Error", s) := by
  refine ⟨by decide, ?_⟩
  have hfil : (addRequiredFields.filter fun f => ! truthy (getField b f)) = [] :=
    List.filter_eq_nil_iff.2 (by intro f hf; simp [hfields f hf])
  rcases hrole with h | h <;> subst h <;>
    simp [addEmployee, hfil, hpw, bcryptHash]

/-- Witness for C10: `exBody` with its password removed. -/
theorem c10_missing_password_internal_error_witness :
    (("hr" : String) = "hr" ∨ ("hr" : String) = "admin") ∧
    (∀ f ∈ addRequiredFields,
      truthy (getField { exBody with password := .undefined } f) = true) ∧
    ({ exBody with password := .undefined } : EmpBody).password = .undefined ∧
    ("password" ∉ addRequiredFields ∧
      addEmployee "hr" { exBody with password := .undefined } emptyStore =
        (.error 500 "Internal Server Error", emptyStore)) :=
  ⟨Or.inl rfl, by decide, rfl,
   c10_missing_password_internal_error "hr" { exBody with password := .undefined }
     emptyStore (Or.inl rfl) (by decide) rfl⟩

end Hyro
